import Mathlib

/-!
Shallow embedding of the `TcpHyblaI` congestion controller
(`tcp-hybla-i.cc` / `tcp-hybla-i.h`), an ns-3 TCP Hybla variant.

Modelling conventions:
* `double` values are modelled as exact rationals (`ℚ`).
* ns-3 `Time` values are modelled as rational nanosecond counts (`ℚ`);
  `Time::GetMilliSeconds` truncates to whole milliseconds (integer
  division of the nanosecond count, i.e. the floor for non-negative
  durations), `Time::GetSeconds` is the exact rational number of seconds.
* `uint32_t` byte counts (`m_cWnd`, `m_ssThresh`, `m_segmentSize`,
  `m_bytesInFlight`) are modelled as `ℕ`; the 32-bit sequence-number
  subtraction `m_nextTxSequence - m_lastAckedSeq` (which in the source
  goes through `SequenceNumber32`'s wraparound-safe difference and a
  conversion back to `uint32_t`) is modelled explicitly modulo `2 ^ 32`.
* `static_cast<uint32_t>(x)` applied to a non-negative `double` truncates
  toward zero and keeps the low 32 bits of the result (the in-range cases
  by the standard; the out-of-range cases are formally undefined and are
  modelled as the double-to-int64-then-truncate lowering produces); it is
  modelled as `(Int.floor x).toNat % 2 ^ 32`. The `uint32_t` window
  updates `m_cWnd + incr` and `m_cWnd += scaledInc` wrap modulo `2 ^ 32`.
* `std::pow (2, m_rho)` is irrational for non-integral `m_rho`, so
  `SlowStart` receives the value of that expression as an explicit
  rational argument `pow2rho`; `std::pow (m_rho, 2)` is the exact square.
-/

/-- The fields of ns-3 `TcpSocketState` read or written by `TcpHyblaI`.
Byte quantities are `ℕ`, durations are rational nanosecond counts,
sequence numbers are the underlying `uint32_t` counters. -/
structure TcpSocketState where
  m_cWnd : ℕ
  m_ssThresh : ℕ
  m_segmentSize : ℕ
  m_bytesInFlight : ℕ
  m_minRtt : ℚ
  m_srtt : ℚ
  m_nextTxSequence : ℕ
  m_lastAckedSeq : ℕ
deriving DecidableEq, Repr

/-- The member state of a `TcpHyblaI` object (smoothed RTT, configuration
attributes, and the Hybla parameters re-implemented in the subclass). -/
structure TcpHyblaI where
  m_sRtt : ℚ
  m_alpha : ℚ
  m_inFlightThresh : ℚ
  m_rtoScalingFactor : ℚ
  m_rRtt : ℚ
  m_rho : ℚ
  m_cWndCnt : ℚ
deriving DecidableEq, Repr

/-- `Time::GetSeconds` on a nanosecond count. -/
def getSeconds (t : ℚ) : ℚ := t / 1000000000

/-- `Time::GetMilliSeconds` on a nanosecond count: whole milliseconds,
truncating the sub-millisecond component (floor, for non-negative times). -/
def getMilliSeconds (t : ℚ) : ℤ := ⌊t / 1000000⌋

/-- `TcpSocketState::GetCwndInSegments`: `m_cWnd / m_segmentSize`
(integer division). -/
def GetCwndInSegments (tcb : TcpSocketState) : ℕ :=
  tcb.m_cWnd / tcb.m_segmentSize

/-- The `uint32_t` value of `m_nextTxSequence - m_lastAckedSeq`:
wraparound-safe difference of 32-bit sequence numbers. -/
def seqDiff (a b : ℕ) : ℕ :=
  (a % 2 ^ 32 + (2 ^ 32 - b % 2 ^ 32)) % 2 ^ 32

/-- Default-constructed `TcpHyblaI` state: `m_sRtt = 0`, `m_alpha = 0.9`,
`m_inFlightThresh = 0.8`, `m_rtoScalingFactor = 1.0`, `m_rRtt = 50 ms`,
`m_rho = 1.0`, `m_cWndCnt = 0.0`. -/
def initTcpHyblaI : TcpHyblaI :=
  { m_sRtt := 0
    m_alpha := 9/10
    m_inFlightThresh := 4/5
    m_rtoScalingFactor := 1
    m_rRtt := 50000000
    m_rho := 1
    m_cWndCnt := 0 }

/-- The copy constructor / `TcpHyblaI::Fork` (via `CopyObject`): a value
copy of every member. -/
def Fork (st : TcpHyblaI) : TcpHyblaI := st

/-- Local `inflightRatio` of `ComputeScalingFactor`:
`bytesInFlight / cwnd`, or `0` when the window is zero. -/
def inflightRatio (tcb : TcpSocketState) : ℚ :=
  if (tcb.m_cWnd : ℚ) > 0 then (tcb.m_bytesInFlight : ℚ) / (tcb.m_cWnd : ℚ)
  else 0

/-- Local `computedRto` of `ComputeScalingFactor`: twice the host-reported
smoothed RTT, in seconds. -/
def computedRto (tcb : TcpSocketState) : ℚ :=
  getSeconds tcb.m_srtt * 2

/-- Local `rtoRatio` of `ComputeScalingFactor` before the clamp:
`computedRto / sRtt`, or `1` when the controller's smoothed RTT is zero. -/
def rtoRatioInit (st : TcpHyblaI) (tcb : TcpSocketState) : ℚ :=
  if st.m_sRtt = 0 then 1 else computedRto tcb / getSeconds st.m_sRtt

/-- Local `rtoRatio` after `rtoRatio = std::max(rtoRatio, 1.0)`. -/
def rtoRatio (st : TcpHyblaI) (tcb : TcpSocketState) : ℚ :=
  max (rtoRatioInit st tcb) 1

/-- Local `outstanding` of `ComputeScalingFactor`. -/
def outstanding (tcb : TcpSocketState) : ℕ :=
  seqDiff tcb.m_nextTxSequence tcb.m_lastAckedSeq

/-- Local `outstandingFactor`: `0.9` when more than twice the window (in
segments) is outstanding, else `1.0`. -/
def outstandingFactor (tcb : TcpSocketState) : ℚ :=
  if outstanding tcb > GetCwndInSegments tcb * 2 then 9/10 else 1

/-- Local `inflightFactor`: dampened (with a floor of `0.5`) when the
in-flight ratio exceeds the threshold, else `1.0`. -/
def inflightFactor (st : TcpHyblaI) (tcb : TcpSocketState) : ℚ :=
  if inflightRatio tcb > st.m_inFlightThresh then
    max (1 - (inflightRatio tcb - st.m_inFlightThresh) * (1/2)) (1/2)
  else 1

/-- Local `rtoFactor`: `1 / (1 + (rtoRatio - 1) * m_rtoScalingFactor)`. -/
def rtoFactor (st : TcpHyblaI) (tcb : TcpSocketState) : ℚ :=
  1 / (1 + (rtoRatio st tcb - 1) * st.m_rtoScalingFactor)

/-- `TcpHyblaI::ComputeScalingFactor`: the product of the three dampening
factors, clamped below at `0.5`. -/
def ComputeScalingFactor (st : TcpHyblaI) (tcb : TcpSocketState) : ℚ :=
  max (inflightFactor st tcb * rtoFactor st tcb * outstandingFactor tcb) (1/2)

/-- `TcpHyblaI::HyblaIRecalcParam`: recompute `m_rho` from the smoothed
RTT (falling back to the host's `m_minRtt` before the first sample) and
the reference RTT, both truncated to whole milliseconds, clamped below
at `1.0`. -/
def HyblaIRecalcParam (st : TcpHyblaI) (tcb : TcpSocketState) : TcpHyblaI :=
  let effectiveRtt := if st.m_sRtt = 0 then tcb.m_minRtt else st.m_sRtt
  let candidateRho : ℚ :=
    (getMilliSeconds effectiveRtt : ℚ) / (getMilliSeconds st.m_rRtt : ℚ)
  { st with m_rho := max candidateRho 1 }

/-- Local `effectiveRtt` of `HyblaIRecalcParam` (named for stating
precision properties). -/
def effectiveRtt (st : TcpHyblaI) (tcb : TcpSocketState) : ℚ :=
  if st.m_sRtt = 0 then tcb.m_minRtt else st.m_sRtt

/-- Local `candidateRho` of `HyblaIRecalcParam`: the millisecond-truncated
RTT ratio. -/
def candidateRho (st : TcpHyblaI) (tcb : TcpSocketState) : ℚ :=
  (getMilliSeconds (effectiveRtt st tcb) : ℚ) / (getMilliSeconds st.m_rRtt : ℚ)

/-- `TcpHyblaI::PktsAcked`: exponential smoothing of `m_sRtt` (the first
sample is taken verbatim), then `HyblaIRecalcParam` when the sample
equals the host's minimum RTT. The socket state is only read, never
written, so it is returned unchanged. -/
def PktsAcked (st : TcpHyblaI) (tcb : TcpSocketState) (segmentsAcked : ℕ)
    (rtt : ℚ) : TcpHyblaI × TcpSocketState :=
  let _ := segmentsAcked
  let st1 :=
    if st.m_sRtt = 0 then { st with m_sRtt := rtt }
    else { st with m_sRtt := st.m_sRtt * st.m_alpha + rtt * (1 - st.m_alpha) }
  if rtt = tcb.m_minRtt then (HyblaIRecalcParam st1 tcb, tcb)
  else (st1, tcb)

/-- Local `incr` of `SlowStart`:
`static_cast<uint32_t>(increment * m_segmentSize)` with
`increment = (std::pow (2, m_rho) - 1) * scale` — the truncated value
reduced to 32 bits (exact whenever it is below `2 ^ 32`). -/
def ssIncr (st : TcpHyblaI) (tcb : TcpSocketState) (pow2rho : ℚ) : ℕ :=
  (⌊(pow2rho - 1) * ComputeScalingFactor st tcb *
    (tcb.m_segmentSize : ℚ)⌋).toNat % 2 ^ 32

/-- `TcpHyblaI::SlowStart`. Its source precondition is the assertion
`m_cWnd <= m_ssThresh`. `pow2rho` is the value of `std::pow (2, m_rho)`.
The window update `std::min (m_cWnd + incr, m_ssThresh)` is `uint32_t`
arithmetic: the sum wraps modulo `2 ^ 32`. Returns the updated socket
state and the `uint32_t` return value. -/
def SlowStart (st : TcpHyblaI) (tcb : TcpSocketState) (segmentsAcked : ℕ)
    (pow2rho : ℚ) : TcpSocketState × ℕ :=
  if 1 ≤ segmentsAcked then
    ({ tcb with m_cWnd := min ((tcb.m_cWnd +
        ssIncr st tcb pow2rho) % 2 ^ 32) tcb.m_ssThresh },
     segmentsAcked - 1)
  else (tcb, 0)

/-- A sample socket state used to witness the theorems on concrete
inputs: a 500-byte window of five 100-byte segments, nothing in flight,
all sequence numbers equal, zero host RTT estimates. -/
def sampleTcb : TcpSocketState :=
  { m_cWnd := 500
    m_ssThresh := 1000
    m_segmentSize := 100
    m_bytesInFlight := 0
    m_minRtt := 0
    m_srtt := 0
    m_nextTxSequence := 0
    m_lastAckedSeq := 0 }

/-- A sample socket state with a zero congestion window (the
division-by-zero edge case of `ComputeScalingFactor`). -/
def zeroCwndTcb : TcpSocketState :=
  { m_cWnd := 0
    m_ssThresh := 1000
    m_segmentSize := 100
    m_bytesInFlight := 200
    m_minRtt := 0
    m_srtt := 0
    m_nextTxSequence := 0
    m_lastAckedSeq := 0 }

/-- A sample controller state whose smoothed RTT (3.5 ms) and reference
RTT (2.5 ms) both have fractional-millisecond components. -/
def subMsSt : TcpHyblaI :=
  { initTcpHyblaI with m_sRtt := 3500000, m_rRtt := 2500000 }

/-- A sample socket state with 1-byte segments, used to exhibit the
`uint32_t` wraparound of the slow-start increment cast. -/
def unitMssTcb : TcpSocketState :=
  { m_cWnd := 500
    m_ssThresh := 1000
    m_segmentSize := 1
    m_bytesInFlight := 0
    m_minRtt := 0
    m_srtt := 0
    m_nextTxSequence := 0
    m_lastAckedSeq := 0 }

/-- A sample socket state with 4-byte segments (125 segments in the
window), used to exhibit the `uint32_t` wraparound of the
congestion-avoidance increment cast. -/
def fourMssTcb : TcpSocketState :=
  { m_cWnd := 500
    m_ssThresh := 1000
    m_segmentSize := 4
    m_bytesInFlight := 0
    m_minRtt := 0
    m_srtt := 0
    m_nextTxSequence := 0
    m_lastAckedSeq := 0 }

/-- A sample socket state whose window (`2 ^ 32 - 100` bytes) sits just
below the `uint32_t` limit, used to exhibit the wraparound of
`m_cWnd += scaledInc`. -/
def wrapTcb : TcpSocketState :=
  { m_cWnd := 4294967196
    m_ssThresh := 4294967295
    m_segmentSize := 4
    m_bytesInFlight := 0
    m_minRtt := 0
    m_srtt := 0
    m_nextTxSequence := 0
    m_lastAckedSeq := 0 }

/-- A sample socket state whose window holds exactly one segment, used
to exhibit the wraparound of the `uint32_t` cast of the credit
counter. -/
def oneSegTcb : TcpSocketState :=
  { m_cWnd := 100
    m_ssThresh := 1000
    m_segmentSize := 100
    m_bytesInFlight := 0
    m_minRtt := 0
    m_srtt := 0
    m_nextTxSequence := 0
    m_lastAckedSeq := 0 }

/-- The `while (segmentsAcked > 0)` loop of
`TcpHyblaI::CongestionAvoidance`: each iteration adds
`pow(m_rho, 2) / GetCwndInSegments()` to the running counter (the socket
state does not change during the loop). -/
def caAccumLoop (st : TcpHyblaI) (tcb : TcpSocketState) :
    ℕ → ℚ → ℚ
  | 0, cnt => cnt
  | n + 1, cnt =>
    caAccumLoop st tcb n
      (cnt + st.m_rho ^ 2 / (GetCwndInSegments tcb : ℚ))

/-- Local `inc` of `CongestionAvoidance`:
`static_cast<uint32_t>(m_cWndCnt)` on the post-loop counter — the
truncated value reduced to 32 bits (exact whenever the counter is below
`2 ^ 32`). -/
def caInc (st : TcpHyblaI) (tcb : TcpSocketState) (segmentsAcked : ℕ) : ℕ :=
  (⌊caAccumLoop st tcb segmentsAcked st.m_cWndCnt⌋).toNat % 2 ^ 32

/-- Local `scaledInc` of `CongestionAvoidance`:
`(uint32_t)((double)inc * scale * m_segmentSize)` — the truncated value
reduced to 32 bits. -/
def caScaledInc (st : TcpHyblaI) (tcb : TcpSocketState)
    (segmentsAcked : ℕ) : ℕ :=
  (⌊(caInc st tcb segmentsAcked : ℚ) * ComputeScalingFactor st tcb *
    (tcb.m_segmentSize : ℚ)⌋).toNat % 2 ^ 32

/-- `TcpHyblaI::CongestionAvoidance`: accumulate fractional credit once
per acknowledged segment; when the counter reaches `1.0`, consume its
`uint32_t` truncation as a scaled window increment and subtract the
consumed amount from the counter. The window update
`m_cWnd += scaledInc` is `uint32_t` arithmetic: the sum wraps modulo
`2 ^ 32` (this path has no upper clamp). -/
def CongestionAvoidance (st : TcpHyblaI) (tcb : TcpSocketState)
    (segmentsAcked : ℕ) : TcpHyblaI × TcpSocketState :=
  let cnt := caAccumLoop st tcb segmentsAcked st.m_cWndCnt
  if 1 ≤ cnt then
    ({ st with m_cWndCnt := cnt - (caInc st tcb segmentsAcked : ℚ) },
     { tcb with m_cWnd := (tcb.m_cWnd + caScaledInc st tcb segmentsAcked) % 2 ^ 32 })
  else
    ({ st with m_cWndCnt := cnt }, tcb)

/-! ### Bounds on the scaling-factor components -/

lemma one_le_rtoRatio (st : TcpHyblaI) (tcb : TcpSocketState) :
    1 ≤ rtoRatio st tcb := le_max_right _ _

lemma rtoFactor_pos (st : TcpHyblaI) (tcb : TcpSocketState)
    (hk : 0 ≤ st.m_rtoScalingFactor) : 0 < rtoFactor st tcb := by
  have h1 : 0 ≤ (rtoRatio st tcb - 1) * st.m_rtoScalingFactor :=
    mul_nonneg (by linarith [one_le_rtoRatio st tcb]) hk
  have h2 : (0:ℚ) < 1 + (rtoRatio st tcb - 1) * st.m_rtoScalingFactor := by linarith
  exact div_pos one_pos h2

lemma rtoFactor_le_one (st : TcpHyblaI) (tcb : TcpSocketState)
    (hk : 0 ≤ st.m_rtoScalingFactor) : rtoFactor st tcb ≤ 1 := by
  have h1 : 0 ≤ (rtoRatio st tcb - 1) * st.m_rtoScalingFactor :=
    mul_nonneg (by linarith [one_le_rtoRatio st tcb]) hk
  have h2 : (0:ℚ) < 1 + (rtoRatio st tcb - 1) * st.m_rtoScalingFactor := by linarith
  rw [rtoFactor, div_le_one h2]
  linarith

lemma half_le_inflightFactor (st : TcpHyblaI) (tcb : TcpSocketState) :
    1/2 ≤ inflightFactor st tcb := by
  rw [inflightFactor]
  split_ifs with h
  · exact le_max_right _ _
  · norm_num

lemma inflightFactor_le_one (st : TcpHyblaI) (tcb : TcpSocketState) :
    inflightFactor st tcb ≤ 1 := by
  rw [inflightFactor]
  split_ifs with h
  · exact max_le (by linarith) (by norm_num)
  · exact le_rfl

lemma outstandingFactor_le_one (tcb : TcpSocketState) :
    outstandingFactor tcb ≤ 1 := by
  rw [outstandingFactor]; split_ifs <;> norm_num

lemma outstandingFactor_pos (tcb : TcpSocketState) :
    0 < outstandingFactor tcb := by
  rw [outstandingFactor]; split_ifs <;> norm_num

lemma scalingProduct_le_one (st : TcpHyblaI) (tcb : TcpSocketState)
    (hk : 0 ≤ st.m_rtoScalingFactor) :
    inflightFactor st tcb * rtoFactor st tcb * outstandingFactor tcb ≤ 1 := by
  have h1 := inflightFactor_le_one st tcb
  have h2 := half_le_inflightFactor st tcb
  have h3 := rtoFactor_le_one st tcb hk
  have h4 := rtoFactor_pos st tcb hk
  have h5 := outstandingFactor_le_one tcb
  have h6 := outstandingFactor_pos tcb
  have hab : inflightFactor st tcb * rtoFactor st tcb ≤ 1 :=
    mul_le_one₀ h1 (le_of_lt h4) h3
  exact mul_le_one₀ hab (le_of_lt h6) h5

lemma computeScalingFactor_mem (st : TcpHyblaI) (tcb : TcpSocketState)
    (hk : 0 ≤ st.m_rtoScalingFactor) :
    1/2 ≤ ComputeScalingFactor st tcb ∧ ComputeScalingFactor st tcb ≤ 1 :=
  ⟨le_max_right _ _, max_le (scalingProduct_le_one st tcb hk) (by norm_num)⟩

/-- Claim C1: for every connection snapshot and controller state (with
`referenceRtt > 0`, and the non-negative `rtoScalingFactor` enforced by
the attribute range), `ComputeScalingFactor` returns a value in
`[0.5, 1.0]`: the product of `inflightFactor`, `rtoFactor` and
`outstandingFactor` never exceeds `1.0`, and the result is clamped below
at `0.5`. -/
theorem computeScalingFactor_in_unit_interval (st : TcpHyblaI)
    (tcb : TcpSocketState) (hrr : 0 < st.m_rRtt)
    (hk : 0 ≤ st.m_rtoScalingFactor) :
    inflightFactor st tcb * rtoFactor st tcb * outstandingFactor tcb ≤ 1 ∧
    1/2 ≤ ComputeScalingFactor st tcb ∧ ComputeScalingFactor st tcb ≤ 1 :=
  ⟨scalingProduct_le_one st tcb hk, computeScalingFactor_mem st tcb hk⟩

/-- Witness for C1 at the concrete default state and sample snapshot. -/
theorem computeScalingFactor_in_unit_interval_witness :
    (0:ℚ) < initTcpHyblaI.m_rRtt ∧ (0:ℚ) ≤ initTcpHyblaI.m_rtoScalingFactor ∧
    1/2 ≤ ComputeScalingFactor initTcpHyblaI sampleTcb ∧
    ComputeScalingFactor initTcpHyblaI sampleTcb ≤ 1 := by
  have h := computeScalingFactor_in_unit_interval initTcpHyblaI sampleTcb
    (by norm_num [initTcpHyblaI]) (by norm_num [initTcpHyblaI])
  exact ⟨by norm_num [initTcpHyblaI], by norm_num [initTcpHyblaI], h.2.1, h.2.2⟩

/-- Claim C7: `ComputeScalingFactor` is total on the edge cases
`congestionWindow = 0` and `smoothedRtt = 0`: `inflightRatio` falls back
to `0` when the window is zero, `rtoRatio` (before the clamp) falls back
to `1.0` when the controller's smoothed RTT is zero, and in the
`congestionWindow = 0` case the returned factor still lies in
`[0.5, 1.0]` (given the non-negative `rtoScalingFactor` enforced by the
attribute range). -/
theorem computeScalingFactor_edge_cases (st : TcpHyblaI)
    (tcb : TcpSocketState) :
    (st.m_sRtt = 0 → rtoRatioInit st tcb = 1) ∧
    (tcb.m_cWnd = 0 →
      inflightRatio tcb = 0 ∧
      (0 ≤ st.m_rtoScalingFactor →
        1/2 ≤ ComputeScalingFactor st tcb ∧
        ComputeScalingFactor st tcb ≤ 1)) := by
  refine ⟨fun h0 => ?_, fun hc => ⟨?_, fun hk => computeScalingFactor_mem st tcb hk⟩⟩
  · rw [rtoRatioInit, if_pos h0]
  · rw [inflightRatio, hc]
    norm_num

/-- Witness for C7 at a concrete zero-window snapshot and the default
(zero smoothed RTT) controller state. -/
theorem computeScalingFactor_edge_cases_witness :
    rtoRatioInit initTcpHyblaI zeroCwndTcb = 1 ∧
    inflightRatio zeroCwndTcb = 0 ∧
    1/2 ≤ ComputeScalingFactor initTcpHyblaI zeroCwndTcb ∧
    ComputeScalingFactor initTcpHyblaI zeroCwndTcb ≤ 1 := by
  have h := computeScalingFactor_edge_cases initTcpHyblaI zeroCwndTcb
  have h2 := h.2 (by norm_num [zeroCwndTcb])
  have h3 := h2.2 (by norm_num [initTcpHyblaI])
  exact ⟨h.1 (by norm_num [initTcpHyblaI]), h2.1, h3.1, h3.2⟩

/-! ### Rho recalculation and millisecond truncation -/

lemma HyblaIRecalcParam_rho (st : TcpHyblaI) (tcb : TcpSocketState) :
    (HyblaIRecalcParam st tcb).m_rho = max (candidateRho st tcb) 1 := rfl

/-- Counterexample to claim C10 as stated: with a smoothed RTT of 3.5 ms
and a reference RTT of 2.5 ms (both having fractional-millisecond
components), the code computes the ratio of the whole-millisecond
truncations, `3 / 2`, and not the full-precision ratio `7 / 5`; the
sub-millisecond components are discarded. -/
theorem candidateRho_truncates_counterexample :
    subMsSt.m_sRtt = 3500000 ∧ subMsSt.m_rRtt = 2500000 ∧
    candidateRho subMsSt sampleTcb = 3/2 ∧
    subMsSt.m_sRtt / subMsSt.m_rRtt = 7/5 ∧
    candidateRho subMsSt sampleTcb ≠ subMsSt.m_sRtt / subMsSt.m_rRtt ∧
    (HyblaIRecalcParam subMsSt sampleTcb).m_rho = 3/2 := by
  have hc : candidateRho subMsSt sampleTcb = 3/2 := by
    norm_num [candidateRho, effectiveRtt, getMilliSeconds, subMsSt,
      initTcpHyblaI, sampleTcb]
  refine ⟨rfl, rfl, hc, by norm_num [subMsSt, initTcpHyblaI], by rw [hc]; norm_num [subMsSt, initTcpHyblaI], ?_⟩
  rw [HyblaIRecalcParam_rho, hc]
  norm_num

/-- Claim C10 (amended): `HyblaIRecalcParam` computes `candidateRho` as
the ratio of the whole-millisecond truncations of `effectiveRtt` and
`referenceRtt` (`Time::GetMilliSeconds`); sub-millisecond components are
discarded, so the resulting `rho` depends only on the whole-millisecond
parts of the two durations. -/
theorem recalcRho_depends_only_on_whole_ms (st₁ st₂ : TcpHyblaI)
    (tcb₁ tcb₂ : TcpSocketState)
    (heff : getMilliSeconds (effectiveRtt st₁ tcb₁) =
      getMilliSeconds (effectiveRtt st₂ tcb₂))
    (href : getMilliSeconds st₁.m_rRtt = getMilliSeconds st₂.m_rRtt) :
    candidateRho st₁ tcb₁ =
      (getMilliSeconds (effectiveRtt st₁ tcb₁) : ℚ) /
        (getMilliSeconds st₁.m_rRtt : ℚ) ∧
    (HyblaIRecalcParam st₁ tcb₁).m_rho = (HyblaIRecalcParam st₂ tcb₂).m_rho := by
  refine ⟨rfl, ?_⟩
  rw [HyblaIRecalcParam_rho, HyblaIRecalcParam_rho, candidateRho, candidateRho,
    heff, href]

/-- Witness for the amended C10: perturbing the smoothed RTT from 3.5 ms
to 3.9 ms (same whole-millisecond part) leaves the recalculated `rho`
unchanged. -/
theorem recalcRho_depends_only_on_whole_ms_witness :
    (HyblaIRecalcParam subMsSt sampleTcb).m_rho =
      (HyblaIRecalcParam { subMsSt with m_sRtt := 3900000 } sampleTcb).m_rho := by
  have h := recalcRho_depends_only_on_whole_ms subMsSt
    { subMsSt with m_sRtt := 3900000 } sampleTcb sampleTcb
    (by norm_num [effectiveRtt, getMilliSeconds, subMsSt, initTcpHyblaI])
    (by norm_num [subMsSt, initTcpHyblaI])
  exact h.2

/-! ### The rho invariant and the acknowledgment observer -/

lemma pktsAcked_srtt (st : TcpHyblaI) (tcb : TcpSocketState) (n : ℕ)
    (rtt : ℚ) :
    (PktsAcked st tcb n rtt).1.m_sRtt =
      if st.m_sRtt = 0 then rtt
      else st.m_sRtt * st.m_alpha + rtt * (1 - st.m_alpha) := by
  simp only [PktsAcked]
  split_ifs <;> rfl

/-- Claim C4: `rho` is at least `1.0` in every reachable controller
state: it is initialized to `1.0`; after every call to
`HyblaIRecalcParam` (for any input RTTs, with `referenceRtt > 0`) `rho`
equals `max(candidateRho, 1.0)` and hence is at least `1.0`; the growth
steps and `Fork` never modify `rho`; and `PktsAcked` (which may trigger
the recalculation) preserves `1 ≤ rho`. -/
theorem rho_ge_one_invariant :
    initTcpHyblaI.m_rho = 1 ∧
    (∀ st tcb, 0 < st.m_rRtt →
      (HyblaIRecalcParam st tcb).m_rho = max (candidateRho st tcb) 1 ∧
      1 ≤ (HyblaIRecalcParam st tcb).m_rho) ∧
    (∀ st tcb n, (CongestionAvoidance st tcb n).1.m_rho = st.m_rho) ∧
    (∀ st, (Fork st).m_rho = st.m_rho) ∧
    (∀ st tcb n rtt, 1 ≤ st.m_rho → 1 ≤ (PktsAcked st tcb n rtt).1.m_rho) := by
  refine ⟨rfl, fun st tcb _ => ⟨HyblaIRecalcParam_rho st tcb, ?_⟩,
    fun st tcb n => ?_, fun st => rfl, fun st tcb n rtt h => ?_⟩
  · rw [HyblaIRecalcParam_rho]
    exact le_max_right _ _
  · simp only [CongestionAvoidance]
    split_ifs <;> rfl
  · simp only [PktsAcked]
    split_ifs with h1 h2 h2
    · exact le_max_right _ _
    · exact le_max_right _ _
    · exact h
    · exact h

/-- Witness for C4 at the default state (rho preserved through a first
acknowledgment sample and through a direct recalculation). -/
theorem rho_ge_one_invariant_witness :
    1 ≤ (HyblaIRecalcParam initTcpHyblaI sampleTcb).m_rho ∧
    1 ≤ (PktsAcked initTcpHyblaI sampleTcb 1 0).1.m_rho := by
  have h := rho_ge_one_invariant
  exact ⟨(h.2.1 initTcpHyblaI sampleTcb (by norm_num [initTcpHyblaI])).2,
    h.2.2.2.2 initTcpHyblaI sampleTcb 1 0 (by norm_num [initTcpHyblaI])⟩

/-- Claim C5: `PktsAcked` updates only the controller's RTT-estimator
state: on a first sample (`smoothedRtt = 0` at entry) it sets
`smoothedRtt` to the sample exactly; otherwise it sets `smoothedRtt` to
`alpha * smoothedRtt + (1 - alpha) * sampleRtt`. The socket state —
in particular `congestionWindow` — and the fractional credit counter
are never modified. -/
theorem pktsAcked_updates_srtt_only (st : TcpHyblaI) (tcb : TcpSocketState)
    (n : ℕ) (rtt : ℚ) :
    (st.m_sRtt = 0 → (PktsAcked st tcb n rtt).1.m_sRtt = rtt) ∧
    (st.m_sRtt ≠ 0 →
      (PktsAcked st tcb n rtt).1.m_sRtt =
        st.m_alpha * st.m_sRtt + (1 - st.m_alpha) * rtt) ∧
    (PktsAcked st tcb n rtt).2 = tcb ∧
    (PktsAcked st tcb n rtt).2.m_cWnd = tcb.m_cWnd ∧
    (PktsAcked st tcb n rtt).1.m_cWndCnt = st.m_cWndCnt := by
  refine ⟨fun h0 => ?_, fun h0 => ?_, ?_, ?_, ?_⟩
  · rw [pktsAcked_srtt, if_pos h0]
  · rw [pktsAcked_srtt, if_neg h0]
    ring
  · simp only [PktsAcked]
    split_ifs <;> rfl
  · simp only [PktsAcked]
    split_ifs <;> rfl
  · simp only [PktsAcked]
    split_ifs <;> rfl

/-- Witness for C5: a first acknowledgment sample of 100 ms is copied
into `smoothedRtt` exactly, and the window is untouched. -/
theorem pktsAcked_updates_srtt_only_witness :
    (PktsAcked initTcpHyblaI sampleTcb 1 100000000).1.m_sRtt = 100000000 ∧
    (PktsAcked initTcpHyblaI sampleTcb 1 100000000).2.m_cWnd = 500 := by
  have h := pktsAcked_updates_srtt_only initTcpHyblaI sampleTcb 1 100000000
  refine ⟨h.1 (by norm_num [initTcpHyblaI]), ?_⟩
  rw [h.2.2.2.1]
  rfl

/-! ### Growth steps -/

lemma caAccumLoop_closed (st : TcpHyblaI) (tcb : TcpSocketState) :
    ∀ (n : ℕ) (c : ℚ), caAccumLoop st tcb n c =
      c + (n : ℚ) * (st.m_rho ^ 2 / (GetCwndInSegments tcb : ℚ)) := by
  intro n
  induction n with
  | zero => intro c; simp [caAccumLoop]
  | succ k ih =>
    intro c
    rw [caAccumLoop, ih]
    push_cast
    ring

/-- Claim C9: the per-segment accumulation loop of
`CongestionAvoidance` is equivalent to the closed form
`counter + segmentsAcked * rho^2 / segmentsInWindow`: the window does
not change during the loop, so each iteration adds an identical amount
and the iterative and single-multiply formulations agree for every
`segmentsAcked` and every starting counter. -/
theorem caLoop_closed_form_equiv (st : TcpHyblaI) (tcb : TcpSocketState)
    (n : ℕ) (c : ℚ) :
    caAccumLoop st tcb n c =
      c + (n : ℚ) * (st.m_rho ^ 2 / (GetCwndInSegments tcb : ℚ)) :=
  caAccumLoop_closed st tcb n c

lemma floor_toNat_cast (x : ℚ) (hx : 1 ≤ x) :
    ((⌊x⌋.toNat : ℕ) : ℚ) = (⌊x⌋ : ℚ) := by
  have h0 : (0:ℤ) ≤ ⌊x⌋ := Int.floor_nonneg.mpr (by linarith)
  exact_mod_cast congrArg (Int.cast : ℤ → ℚ) (Int.toNat_of_nonneg h0)

lemma ca_cnt_eq (st : TcpHyblaI) (tcb : TcpSocketState) (n : ℕ)
    (h1 : 1 ≤ caAccumLoop st tcb n st.m_cWndCnt) :
    (CongestionAvoidance st tcb n).1.m_cWndCnt =
      caAccumLoop st tcb n st.m_cWndCnt - (caInc st tcb n : ℚ) := by
  rw [CongestionAvoidance, if_pos h1]

lemma ca_cwnd_eq (st : TcpHyblaI) (tcb : TcpSocketState) (n : ℕ)
    (h1 : 1 ≤ caAccumLoop st tcb n st.m_cWndCnt) :
    (CongestionAvoidance st tcb n).2.m_cWnd =
      (tcb.m_cWnd + caScaledInc st tcb n) % 2 ^ 32 := by
  rw [CongestionAvoidance, if_pos h1]

/-- Counterexample to claim C2 as stated: with `2^rho = 2^32 + 2`
(`rho` just above 32, inside Hybla's high-RTT regime), scaling factor
`1` and segment size `1`, the claimed window
`min(cwnd + floor((2^rho - 1) * scale * segmentSize), ssThresh)` is the
threshold `1000`, but the `uint32_t` cast of the `2^32 + 1`-byte
increment keeps only the low 32 bits (`1`), and the code yields `501`. -/
theorem slowStart_wrap_counterexample :
    ComputeScalingFactor initTcpHyblaI unitMssTcb = 1 ∧
    (⌊((4294967298 : ℚ) - 1) * ComputeScalingFactor initTcpHyblaI unitMssTcb *
      (unitMssTcb.m_segmentSize : ℚ)⌋).toNat = 4294967297 ∧
    min (unitMssTcb.m_cWnd + 4294967297) unitMssTcb.m_ssThresh = 1000 ∧
    (SlowStart initTcpHyblaI unitMssTcb 1 4294967298).1.m_cWnd = 501 ∧
    (501 : ℕ) ≠ 1000 := by
  have hs : ComputeScalingFactor initTcpHyblaI unitMssTcb = 1 := by
    norm_num [ComputeScalingFactor, inflightFactor, rtoFactor,
      outstandingFactor, inflightRatio, rtoRatio, rtoRatioInit, computedRto,
      getSeconds, outstanding, seqDiff, GetCwndInSegments, initTcpHyblaI,
      unitMssTcb]
  have hincr : ssIncr initTcpHyblaI unitMssTcb 4294967298 = 1 := by
    rw [ssIncr, hs]
    norm_num [unitMssTcb]
    decide
  refine ⟨hs, ?_, by norm_num [unitMssTcb], ?_, by norm_num⟩
  · rw [hs]
    norm_num [unitMssTcb]
    decide
  · rw [SlowStart, if_pos le_rfl, hincr]
    norm_num [unitMssTcb]

/-- Claim C2 (amended): under the precondition `congestionWindow ≤
slowStartThreshold`, `SlowStart` with `segmentsAcked ≥ 1` sets the
window to `min((cwnd + incr mod 2^32) mod 2^32, ssThresh)` where
`incr = floor((2^rho - 1) * scale * segmentSize)` — which equals the
original claim's `min(cwnd + incr, ssThresh)` whenever the increment
and the sum `cwnd + incr` are below `2^32` (the `uint32_t` cast and
addition are exact there) — never exceeds the threshold, and returns
`segmentsAcked - 1`; with `segmentsAcked = 0` it changes nothing and
returns `0`; and with `2^rho = 2` (i.e. `rho = 1`) and scaling factor
`1` a single acknowledged segment grows the window by exactly one
segment size, up to the threshold clamp. `pow2rho` is the value of
`std::pow (2, m_rho)`. -/
theorem slowStart_spec (st : TcpHyblaI) (tcb : TcpSocketState) (n : ℕ)
    (pow2rho : ℚ) :
    (1 ≤ n → SlowStart st tcb n pow2rho =
      ({ tcb with m_cWnd := min ((tcb.m_cWnd +
          ssIncr st tcb pow2rho) % 2 ^ 32) tcb.m_ssThresh }, n - 1)) ∧
    (1 ≤ n →
      (⌊(pow2rho - 1) * ComputeScalingFactor st tcb *
          (tcb.m_segmentSize : ℚ)⌋).toNat < 2 ^ 32 →
      tcb.m_cWnd + (⌊(pow2rho - 1) * ComputeScalingFactor st tcb *
          (tcb.m_segmentSize : ℚ)⌋).toNat < 2 ^ 32 →
      SlowStart st tcb n pow2rho =
        ({ tcb with m_cWnd := min (tcb.m_cWnd +
            (⌊(pow2rho - 1) * ComputeScalingFactor st tcb *
              (tcb.m_segmentSize : ℚ)⌋).toNat) tcb.m_ssThresh }, n - 1)) ∧
    (SlowStart st tcb 0 pow2rho = (tcb, 0)) ∧
    (tcb.m_cWnd ≤ tcb.m_ssThresh →
      (SlowStart st tcb n pow2rho).1.m_cWnd ≤ tcb.m_ssThresh) ∧
    (pow2rho = 2 → ComputeScalingFactor st tcb = 1 →
      tcb.m_segmentSize < 2 ^ 32 →
      tcb.m_cWnd + tcb.m_segmentSize < 2 ^ 32 →
      (SlowStart st tcb 1 pow2rho).1.m_cWnd =
        min (tcb.m_cWnd + tcb.m_segmentSize) tcb.m_ssThresh) := by
  refine ⟨fun h => ?_, fun h hc hsum => ?_, ?_, fun hpre => ?_,
    fun hp hs hm hcm => ?_⟩
  · rw [SlowStart, if_pos h]
  · rw [SlowStart, if_pos h, ssIncr, Nat.mod_eq_of_lt hc,
      Nat.mod_eq_of_lt hsum]
  · rw [SlowStart, if_neg (by norm_num)]
  · rw [SlowStart]
    split_ifs
    · exact min_le_right _ _
    · exact hpre
  · subst hp
    have hfl : (⌊((2:ℚ) - 1) * ComputeScalingFactor st tcb *
        (tcb.m_segmentSize : ℚ)⌋).toNat = tcb.m_segmentSize := by
      rw [hs]
      rw [show ((2:ℚ) - 1) * 1 * (tcb.m_segmentSize : ℚ) =
        (tcb.m_segmentSize : ℚ) by ring]
      simp
    have hincr : ssIncr st tcb 2 = tcb.m_segmentSize := by
      rw [ssIncr, hfl, Nat.mod_eq_of_lt hm]
    rw [SlowStart, if_pos le_rfl, hincr, Nat.mod_eq_of_lt hcm]

/-- Witness for the amended C2: in the sample snapshot (window 500,
threshold 1000, segment size 100, scaling factor 1) a single
acknowledged segment with `2^rho = 2` grows the window to exactly 600
and returns 0; nothing wraps. -/
theorem slowStart_spec_witness :
    (SlowStart initTcpHyblaI sampleTcb 1 2).1.m_cWnd = 600 ∧
    (SlowStart initTcpHyblaI sampleTcb 1 2).2 = 0 ∧
    (SlowStart initTcpHyblaI sampleTcb 1 2).1.m_cWnd ≤ sampleTcb.m_ssThresh := by
  have hs : ComputeScalingFactor initTcpHyblaI sampleTcb = 1 := by
    norm_num [ComputeScalingFactor, inflightFactor, rtoFactor,
      outstandingFactor, inflightRatio, rtoRatio, rtoRatioInit, computedRto,
      getSeconds, outstanding, seqDiff, GetCwndInSegments, initTcpHyblaI,
      sampleTcb]
  have h := slowStart_spec initTcpHyblaI sampleTcb 1 2
  refine ⟨?_, ?_, h.2.2.2.1 (by norm_num [sampleTcb])⟩
  · rw [h.2.2.2.2 rfl hs (by norm_num [sampleTcb]) (by norm_num [sampleTcb])]
    norm_num [sampleTcb]
  · rw [h.1 le_rfl]

/-- Counterexample to claim C6 as stated: in a snapshot whose window is
`2^32 - 100` bytes (4-byte segments, counter 50.5, `rho = 1`), one
acknowledged segment triggers consumption of 50 credits, a 200-byte
scaled increment, and the `uint32_t` addition `m_cWnd += 200` wraps to
`100`: the congestion-avoidance growth step strictly decreases the
window. -/
theorem cwnd_wrap_decrease_counterexample :
    wrapTcb.m_cWnd = 4294967196 ∧
    (CongestionAvoidance { initTcpHyblaI with m_cWndCnt := 101/2 }
        wrapTcb 1).2.m_cWnd = 100 ∧
    (100 : ℕ) < 4294967196 := by
  refine ⟨rfl, ?_, by norm_num⟩
  have hs : ComputeScalingFactor { initTcpHyblaI with m_cWndCnt := 101/2 }
      wrapTcb = 1 := by
    norm_num [ComputeScalingFactor, inflightFactor, rtoFactor,
      outstandingFactor, inflightRatio, rtoRatio, rtoRatioInit, computedRto,
      getSeconds, outstanding, seqDiff, GetCwndInSegments, initTcpHyblaI,
      wrapTcb]
  have hcnt : caAccumLoop { initTcpHyblaI with m_cWndCnt := 101/2 } wrapTcb 1
      ({ initTcpHyblaI with m_cWndCnt := (101/2 : ℚ) }).m_cWndCnt =
      101/2 + 1/1073741799 := by
    norm_num [caAccumLoop, GetCwndInSegments, initTcpHyblaI, wrapTcb]
  have h1 : (1:ℚ) ≤ caAccumLoop { initTcpHyblaI with m_cWndCnt := 101/2 }
      wrapTcb 1 ({ initTcpHyblaI with m_cWndCnt := (101/2 : ℚ) }).m_cWndCnt := by
    rw [hcnt]
    norm_num
  have hinc : caInc { initTcpHyblaI with m_cWndCnt := 101/2 } wrapTcb 1 = 50 := by
    rw [caInc, hcnt]
    norm_num
    decide
  have hsc : caScaledInc { initTcpHyblaI with m_cWndCnt := 101/2 }
      wrapTcb 1 = 200 := by
    rw [caScaledInc, hinc, hs]
    norm_num [wrapTcb] <;> decide
  rw [ca_cwnd_eq _ _ _ h1, hsc]
  norm_num [wrapTcb]

/-- Claim C6 (amended): growth steps never decrease the congestion
window as long as the `uint32_t` window arithmetic does not wrap:
`CongestionAvoidance` leaves `m_cWnd` at least its entry value whenever
`m_cWnd + scaledInc < 2^32`, and `SlowStart`, under its precondition
`m_cWnd ≤ m_ssThresh`, never reduces `m_cWnd` whenever
`m_cWnd + incr < 2^32`. (When the sum reaches `2^32` the wrapped
addition can shrink the window, as the counterexample shows.) -/
theorem growth_steps_never_decrease_cwnd (st : TcpHyblaI)
    (tcb : TcpSocketState) (n : ℕ) (pow2rho : ℚ) :
    (tcb.m_cWnd + caScaledInc st tcb n < 2 ^ 32 →
      tcb.m_cWnd ≤ (CongestionAvoidance st tcb n).2.m_cWnd) ∧
    (tcb.m_cWnd ≤ tcb.m_ssThresh →
      tcb.m_cWnd + ssIncr st tcb pow2rho < 2 ^ 32 →
      tcb.m_cWnd ≤ (SlowStart st tcb n pow2rho).1.m_cWnd) := by
  constructor
  · intro hsum
    rw [CongestionAvoidance]
    split_ifs
    · dsimp only
      rw [Nat.mod_eq_of_lt hsum]
      exact Nat.le_add_right _ _
    · exact le_rfl
  · intro hpre hsum
    rw [SlowStart]
    split_ifs
    · dsimp only
      rw [Nat.mod_eq_of_lt hsum]
      exact le_min (Nat.le_add_right _ _) hpre
    · exact le_rfl

/-- Witness for the amended C6 at the sample snapshot (window 500 ≤
threshold 1000), one acknowledged segment, `2^rho = 2`; both computed
increments stay far below `2^32`. -/
theorem growth_steps_never_decrease_cwnd_witness :
    sampleTcb.m_cWnd ≤
      (CongestionAvoidance initTcpHyblaI sampleTcb 1).2.m_cWnd ∧
    sampleTcb.m_cWnd ≤ (SlowStart initTcpHyblaI sampleTcb 1 2).1.m_cWnd := by
  have h := growth_steps_never_decrease_cwnd initTcpHyblaI sampleTcb 1 2
  refine ⟨h.1 ?_, h.2 (by norm_num [sampleTcb]) ?_⟩
  · norm_num [caScaledInc, caInc, caAccumLoop, ComputeScalingFactor,
      inflightFactor, rtoFactor, outstandingFactor, inflightRatio, rtoRatio,
      rtoRatioInit, computedRto, getSeconds, outstanding, seqDiff,
      GetCwndInSegments, initTcpHyblaI, sampleTcb]
  · norm_num [ssIncr, ComputeScalingFactor, inflightFactor, rtoFactor,
      outstandingFactor, inflightRatio, rtoRatio, rtoRatioInit, computedRto,
      getSeconds, outstanding, seqDiff, GetCwndInSegments, initTcpHyblaI,
      sampleTcb] <;> decide

lemma floor_toNat_lt (x : ℚ) (h2 : x < 2 ^ 32) : (⌊x⌋).toNat < 2 ^ 32 := by
  have hz : ⌊x⌋ < (2 ^ 32 : ℤ) := by
    rw [Int.floor_lt]
    exact_mod_cast h2
  omega

lemma ca_cnt_of_ge (st : TcpHyblaI) (tcb : TcpSocketState) (n : ℕ)
    (h1 : 1 ≤ caAccumLoop st tcb n st.m_cWndCnt)
    (h2 : caAccumLoop st tcb n st.m_cWndCnt < 2 ^ 32) :
    (CongestionAvoidance st tcb n).1.m_cWndCnt =
      Int.fract (caAccumLoop st tcb n st.m_cWndCnt) := by
  rw [CongestionAvoidance, if_pos h1]
  dsimp only
  rw [caInc, Nat.mod_eq_of_lt (floor_toNat_lt _ h2), floor_toNat_cast _ h1,
    Int.fract]

lemma ca_cwnd_of_ge (st : TcpHyblaI) (tcb : TcpSocketState) (n : ℕ)
    (h1 : 1 ≤ caAccumLoop st tcb n st.m_cWndCnt)
    (h2 : caAccumLoop st tcb n st.m_cWndCnt < 2 ^ 32)
    (h3 : (⌊(⌊caAccumLoop st tcb n st.m_cWndCnt⌋ : ℚ) *
      ComputeScalingFactor st tcb * (tcb.m_segmentSize : ℚ)⌋).toNat < 2 ^ 32)
    (h4 : tcb.m_cWnd + (⌊(⌊caAccumLoop st tcb n st.m_cWndCnt⌋ : ℚ) *
      ComputeScalingFactor st tcb * (tcb.m_segmentSize : ℚ)⌋).toNat < 2 ^ 32) :
    (CongestionAvoidance st tcb n).2.m_cWnd = tcb.m_cWnd +
      (⌊(⌊caAccumLoop st tcb n st.m_cWndCnt⌋ : ℚ) *
        ComputeScalingFactor st tcb * (tcb.m_segmentSize : ℚ)⌋).toNat := by
  rw [CongestionAvoidance, if_pos h1]
  dsimp only
  rw [caScaledInc, caInc, Nat.mod_eq_of_lt (floor_toNat_lt _ h2),
    floor_toNat_cast _ h1, Nat.mod_eq_of_lt h3, Nat.mod_eq_of_lt h4]

lemma ca_of_lt (st : TcpHyblaI) (tcb : TcpSocketState) (n : ℕ)
    (h1 : caAccumLoop st tcb n st.m_cWndCnt < 1) :
    CongestionAvoidance st tcb n =
      ({ st with m_cWndCnt := caAccumLoop st tcb n st.m_cWndCnt }, tcb) := by
  rw [CongestionAvoidance, if_neg (not_le.mpr h1)]

lemma caAccumLoop_nonneg (st : TcpHyblaI) (tcb : TcpSocketState) (n : ℕ)
    (h0 : 0 ≤ st.m_cWndCnt) :
    0 ≤ caAccumLoop st tcb n st.m_cWndCnt := by
  rw [caAccumLoop_closed]
  have h1 : 0 ≤ (n : ℚ) * (st.m_rho ^ 2 / (GetCwndInSegments tcb : ℚ)) :=
    mul_nonneg (Nat.cast_nonneg n)
      (div_nonneg (sq_nonneg _) (Nat.cast_nonneg _))
  linarith

/-- Counterexample to claim C3 as stated: with the counter at
`2^31 + 1/2`, `rho = 1` and a 125-segment window of 4-byte segments,
one acknowledged segment brings the counter to `2^31 + 127/250`; the
claimed window growth is `floor(2^31 * 1 * 4) = 2^33` bytes, but the
`uint32_t` cast of `2^33` keeps only the low 32 bits (`0`), so the code
leaves the window at 500 instead of `8589935092`. -/
theorem congestionAvoidance_wrap_counterexample :
    caAccumLoop { initTcpHyblaI with m_cWndCnt := 2147483648 + 1/2 }
      fourMssTcb 1
      ({ initTcpHyblaI with m_cWndCnt := (2147483648 + 1/2 : ℚ) }).m_cWndCnt =
      2147483648 + 127/250 ∧
    (CongestionAvoidance { initTcpHyblaI with m_cWndCnt := 2147483648 + 1/2 }
        fourMssTcb 1).2.m_cWnd = 500 ∧
    fourMssTcb.m_cWnd +
      (⌊(⌊(2147483648 + 127/250 : ℚ)⌋ : ℚ) *
        ComputeScalingFactor { initTcpHyblaI with m_cWndCnt := 2147483648 + 1/2 }
          fourMssTcb * (fourMssTcb.m_segmentSize : ℚ)⌋).toNat = 8589935092 ∧
    (500 : ℕ) ≠ 8589935092 := by
  have hs : ComputeScalingFactor
      { initTcpHyblaI with m_cWndCnt := 2147483648 + 1/2 } fourMssTcb = 1 := by
    norm_num [ComputeScalingFactor, inflightFactor, rtoFactor,
      outstandingFactor, inflightRatio, rtoRatio, rtoRatioInit, computedRto,
      getSeconds, outstanding, seqDiff, GetCwndInSegments, initTcpHyblaI,
      fourMssTcb]
  have hcnt : caAccumLoop { initTcpHyblaI with m_cWndCnt := 2147483648 + 1/2 }
      fourMssTcb 1
      ({ initTcpHyblaI with m_cWndCnt := (2147483648 + 1/2 : ℚ) }).m_cWndCnt =
      2147483648 + 127/250 := by
    norm_num [caAccumLoop, GetCwndInSegments, initTcpHyblaI, fourMssTcb]
  have h1 : (1:ℚ) ≤ caAccumLoop
      { initTcpHyblaI with m_cWndCnt := 2147483648 + 1/2 } fourMssTcb 1
      ({ initTcpHyblaI with m_cWndCnt := (2147483648 + 1/2 : ℚ) }).m_cWndCnt := by
    rw [hcnt]
    norm_num
  have hinc : caInc { initTcpHyblaI with m_cWndCnt := 2147483648 + 1/2 }
      fourMssTcb 1 = 2147483648 := by
    rw [caInc, hcnt]
    norm_num <;> decide
  have hsc : caScaledInc { initTcpHyblaI with m_cWndCnt := 2147483648 + 1/2 }
      fourMssTcb 1 = 0 := by
    rw [caScaledInc, hinc, hs]
    norm_num [fourMssTcb] <;> decide
  refine ⟨hcnt, ?_, ?_, by norm_num⟩
  · rw [ca_cwnd_eq _ _ _ h1, hsc]
    norm_num [fourMssTcb]
  · rw [hs]
    norm_num [fourMssTcb] <;> decide

/-- Claim C3 (amended): for every snapshot with `segmentsInWindow ≥ 1`,
`CongestionAvoidance` adds `rho^2 / segmentsInWindow` to the fractional
credit counter once per acknowledged segment; afterwards, iff the
counter is at least `1.0`, it consumes the counter and adds
`floor(floor(counter) * ComputeScalingFactor * segmentSize)` bytes to
the window — exactly, provided the pre-consumption counter, the scaled
increment and the updated window are all below `2^32` (otherwise the
`uint32_t` casts and addition keep only the low 32 bits) — and leaves
the counter equal to the fractional part of the pre-consumption
counter. -/
theorem congestionAvoidance_spec (st : TcpHyblaI) (tcb : TcpSocketState)
    (n : ℕ) (hseg : 1 ≤ GetCwndInSegments tcb) :
    (1 ≤ st.m_cWndCnt + (n : ℚ) * (st.m_rho ^ 2 / (GetCwndInSegments tcb : ℚ)) →
      st.m_cWndCnt + (n : ℚ) * (st.m_rho ^ 2 / (GetCwndInSegments tcb : ℚ)) <
        2 ^ 32 →
      (CongestionAvoidance st tcb n).1.m_cWndCnt =
        Int.fract (st.m_cWndCnt +
          (n : ℚ) * (st.m_rho ^ 2 / (GetCwndInSegments tcb : ℚ))) ∧
      ((⌊(⌊st.m_cWndCnt +
            (n : ℚ) * (st.m_rho ^ 2 / (GetCwndInSegments tcb : ℚ))⌋ : ℚ) *
          ComputeScalingFactor st tcb * (tcb.m_segmentSize : ℚ)⌋).toNat <
            2 ^ 32 →
        tcb.m_cWnd + (⌊(⌊st.m_cWndCnt +
            (n : ℚ) * (st.m_rho ^ 2 / (GetCwndInSegments tcb : ℚ))⌋ : ℚ) *
          ComputeScalingFactor st tcb * (tcb.m_segmentSize : ℚ)⌋).toNat <
            2 ^ 32 →
        (CongestionAvoidance st tcb n).2.m_cWnd = tcb.m_cWnd +
          (⌊(⌊st.m_cWndCnt +
              (n : ℚ) * (st.m_rho ^ 2 / (GetCwndInSegments tcb : ℚ))⌋ : ℚ) *
            ComputeScalingFactor st tcb * (tcb.m_segmentSize : ℚ)⌋).toNat)) ∧
    (st.m_cWndCnt + (n : ℚ) * (st.m_rho ^ 2 / (GetCwndInSegments tcb : ℚ)) < 1 →
      CongestionAvoidance st tcb n =
        ({ st with m_cWndCnt := st.m_cWndCnt +
            (n : ℚ) * (st.m_rho ^ 2 / (GetCwndInSegments tcb : ℚ)) }, tcb)) := by
  have hcf := caAccumLoop_closed st tcb n st.m_cWndCnt
  constructor
  · intro h1 h2
    rw [← hcf] at h1 h2 ⊢
    exact ⟨ca_cnt_of_ge st tcb n h1 h2,
      fun h3 h4 => ca_cwnd_of_ge st tcb n h1 h2 h3 h4⟩
  · intro h1
    rw [← hcf] at h1 ⊢
    exact ca_of_lt st tcb n h1

/-- Witness for the amended C3, the spec scenario: counter 0.95, one
avoidance step of credit `rho^2 / segmentsInWindow = 1/5 = 0.2` in a
5-segment window: the counter becomes 1.15, triggers a 1-segment scaled
increment (100 bytes at scaling factor 1), and is left at 0.15; nothing
wraps. -/
theorem congestionAvoidance_spec_witness :
    (CongestionAvoidance { initTcpHyblaI with m_cWndCnt := 19/20 }
        sampleTcb 1).1.m_cWndCnt = 3/20 ∧
    (CongestionAvoidance { initTcpHyblaI with m_cWndCnt := 19/20 }
        sampleTcb 1).2.m_cWnd = 600 := by
  have hs : ComputeScalingFactor { initTcpHyblaI with m_cWndCnt := 19/20 }
      sampleTcb = 1 := by
    norm_num [ComputeScalingFactor, inflightFactor, rtoFactor,
      outstandingFactor, inflightRatio, rtoRatio, rtoRatioInit, computedRto,
      getSeconds, outstanding, seqDiff, GetCwndInSegments, initTcpHyblaI,
      sampleTcb]
  have h := (congestionAvoidance_spec { initTcpHyblaI with m_cWndCnt := 19/20 }
    sampleTcb 1 (by norm_num [GetCwndInSegments, sampleTcb])).1
    (by norm_num [initTcpHyblaI, GetCwndInSegments, sampleTcb])
    (by norm_num [initTcpHyblaI, GetCwndInSegments, sampleTcb])
  constructor
  · rw [h.1]
    norm_num [Int.fract, initTcpHyblaI, GetCwndInSegments, sampleTcb]
  · rw [h.2 (by rw [hs]; norm_num [initTcpHyblaI, GetCwndInSegments, sampleTcb])
      (by rw [hs]; norm_num [initTcpHyblaI, GetCwndInSegments, sampleTcb] <;>
        decide), hs]
    norm_num [initTcpHyblaI, GetCwndInSegments, sampleTcb]
    rfl

/-- Counterexample to claim C8 as stated: from a state satisfying the
invariant (counter `1/2 ∈ [0, 1)`) with `rho = 65536` (reachable by a
recalculation at a smoothed RTT of 65536 ms against a 1 ms reference)
and a one-segment window, a single acknowledged segment accumulates
`rho^2 / 1 = 2^32` credits; the `uint32_t` cast of the counter keeps
only the low 32 bits (`0`), so the consuming step subtracts nothing and
the counter ends at `2^32 + 1/2`, not in `[0, 1)` and not equal to the
fractional part `1/2`. -/
theorem cWndCnt_wrap_counterexample :
    ({ initTcpHyblaI with m_cWndCnt := 1/2, m_rho := 65536 } :
      TcpHyblaI).m_cWndCnt = 1/2 ∧
    (CongestionAvoidance
        { initTcpHyblaI with m_cWndCnt := 1/2, m_rho := 65536 }
        oneSegTcb 1).1.m_cWndCnt = 4294967296 + 1/2 ∧
    ¬ ((CongestionAvoidance
        { initTcpHyblaI with m_cWndCnt := 1/2, m_rho := 65536 }
        oneSegTcb 1).1.m_cWndCnt < 1) := by
  have hc : (CongestionAvoidance
      { initTcpHyblaI with m_cWndCnt := 1/2, m_rho := 65536 }
      oneSegTcb 1).1.m_cWndCnt = 4294967296 + 1/2 := by
    norm_num [CongestionAvoidance, caAccumLoop, caInc, GetCwndInSegments,
      initTcpHyblaI, oneSegTcb] <;> decide
  refine ⟨rfl, hc, ?_⟩
  rw [hc]
  norm_num

/-- Claim C8 (amended): the fractional credit counter starts at `0`, is
not modified by `PktsAcked` or `Fork`, and `CongestionAvoidance` keeps
it in `[0, 1)` as long as the accumulated counter stays below `2^32`
(so that its `uint32_t` truncation is exact): from any non-negative
counter whose post-accumulation value is below `2^32` the call leaves
the counter non-negative and strictly below `1`, and immediately after
a consuming step (counter having reached `1.0` or more) it equals the
fractional part of the pre-consumption counter. (At `2^32` and beyond
the cast wraps and consumption can leave the counter at `1.0` or more,
as the counterexample shows.) -/
theorem cWndCnt_unit_interval :
    initTcpHyblaI.m_cWndCnt = 0 ∧
    (∀ st tcb n rtt, (PktsAcked st tcb n rtt).1.m_cWndCnt = st.m_cWndCnt) ∧
    (∀ st, (Fork st).m_cWndCnt = st.m_cWndCnt) ∧
    (∀ st tcb n, 1 ≤ caAccumLoop st tcb n st.m_cWndCnt →
      caAccumLoop st tcb n st.m_cWndCnt < 2 ^ 32 →
      (CongestionAvoidance st tcb n).1.m_cWndCnt =
        Int.fract (caAccumLoop st tcb n st.m_cWndCnt) ∧
      (CongestionAvoidance st tcb n).1.m_cWndCnt < 1) ∧
    (∀ st tcb n, 0 ≤ st.m_cWndCnt →
      caAccumLoop st tcb n st.m_cWndCnt < 2 ^ 32 →
      0 ≤ (CongestionAvoidance st tcb n).1.m_cWndCnt ∧
      (CongestionAvoidance st tcb n).1.m_cWndCnt < 1) := by
  refine ⟨rfl, fun st tcb n rtt => ?_, fun st => rfl,
    fun st tcb n h1 h2 => ?_, fun st tcb n h0 h2 => ?_⟩
  · simp only [PktsAcked]
    split_ifs <;> rfl
  · rw [ca_cnt_of_ge st tcb n h1 h2]
    exact ⟨rfl, Int.fract_lt_one _⟩
  · by_cases h1 : 1 ≤ caAccumLoop st tcb n st.m_cWndCnt
    · rw [ca_cnt_of_ge st tcb n h1 h2]
      exact ⟨Int.fract_nonneg _, Int.fract_lt_one _⟩
    · rw [ca_of_lt st tcb n (not_le.mp h1)]
      exact ⟨caAccumLoop_nonneg st tcb n h0, not_le.mp h1⟩

/-- Witness for the amended C8: from the scenario state (counter 0.95),
one congestion-avoidance call leaves the counter in `[0, 1)`; the
accumulated counter (1.15) is far below `2^32`. -/
theorem cWndCnt_unit_interval_witness :
    0 ≤ (CongestionAvoidance { initTcpHyblaI with m_cWndCnt := 19/20 }
        sampleTcb 1).1.m_cWndCnt ∧
    (CongestionAvoidance { initTcpHyblaI with m_cWndCnt := 19/20 }
        sampleTcb 1).1.m_cWndCnt < 1 :=
  cWndCnt_unit_interval.2.2.2.2 { initTcpHyblaI with m_cWndCnt := 19/20 }
    sampleTcb 1 (by norm_num [initTcpHyblaI])
    (by norm_num [caAccumLoop, GetCwndInSegments, initTcpHyblaI, sampleTcb])
